import Mathlib

/-!
A verification development for the chatbot-backend RAG core.

Python text is modelled as `List Char`.  Python's slice conventions
(negative indices count from the end, out-of-range indices clamp) are
captured by `pyIdx`/`pySlice`, `str.rfind` by `pyRfind`, `str.strip` by
`pyStrip`.  The chunking loop of `app/utils/text_utils.py` is embedded
with explicit fuel, because for some parameter choices the Python loop
does not terminate.  The orchestration layer (`app/core/rag_engine.py`,
`app/core/llm_client.py`, `app/core/vector_store.py`) is embedded as
pure functions over the outcomes of the external collaborators
(embedding model, vector index, generation model), which are passed in
as explicit arguments.
-/

/-- Python string. -/
abbrev Str := List Char

/-- Python `str.strip()` whitespace class: space, tab, LF, CR, VT, FF. -/
def pyIsSpace (c : Char) : Bool :=
  c == ' ' || c == '\t' || c == '\n' || c == '\r' || c == Char.ofNat 11 || c == Char.ofNat 12

/-- Python slice-index normalisation for a string of length `n`:
negative indices count from the end, all indices clamp into `[0, n]`. -/
def pyIdx (n : Nat) (i : Int) : Nat :=
  if i < 0 then ((n : Int) + i).toNat else min i.toNat n

/-- Python `s[a:b]`. -/
def pySlice (s : Str) (a b : Int) : Str :=
  (s.take (pyIdx s.length b)).drop (pyIdx s.length a)

/-- Scan positions `a+k-1, a+k-2, ..., a` (downward) for the character `c`;
first hit is the right-most occurrence.  Returns `-1` when none. -/
def rfindAux (s : Str) (c : Char) (a : Nat) : Nat → Int
  | 0 => -1
  | k+1 => if s.getD (a + k) ' ' = c then ((a + k : Nat) : Int) else rfindAux s c a k

/-- Python `s.rfind(c, a, b)`: right-most index of `c` in the slice range
`[a, b)` (slice-normalised), or `-1`. -/
def pyRfind (s : Str) (c : Char) (a b : Int) : Int :=
  rfindAux s c (pyIdx s.length a) (pyIdx s.length b - pyIdx s.length a)

/-- Python `s.strip()`. -/
def pyStrip (s : Str) : Str :=
  ((s.dropWhile pyIsSpace).reverse.dropWhile pyIsSpace).reverse

/-- One window-end computation of `chunk_text` (text_utils.py lines 40-51):
nominal end `start + chunk_size`; if that lies strictly inside the text,
prefer the right-most sentence terminator found in the last 100 characters
of the window, provided it lies strictly after `start`. -/
def chunkEnd (text : Str) (chunk_size : Nat) (start : Int) : Int :=
  if start + (chunk_size : Int) < (text.length : Int) then
    if start < max (max (pyRfind text '.' (start + chunk_size - 100) (start + chunk_size))
                        (pyRfind text '?' (start + chunk_size - 100) (start + chunk_size)))
                   (pyRfind text '!' (start + chunk_size - 100) (start + chunk_size)) then
      max (max (pyRfind text '.' (start + chunk_size - 100) (start + chunk_size))
               (pyRfind text '?' (start + chunk_size - 100) (start + chunk_size)))
          (pyRfind text '!' (start + chunk_size - 100) (start + chunk_size)) + 1
    else start + chunk_size
  else start + chunk_size

/-- The `while start < len(text)` loop of `chunk_text`
(text_utils.py lines 36-57), with explicit fuel: `none` means the fuel ran
out, i.e. the Python loop would still be running. -/
def chunkLoop (text : Str) (chunk_size overlap : Nat) : Nat → Int → List Str → Option (List Str)
  | 0, start, acc => if start < (text.length : Int) then none else some acc
  | fuel+1, start, acc =>
    if start < (text.length : Int) then
      chunkLoop text chunk_size overlap fuel (chunkEnd text chunk_size start - overlap)
        (if pyStrip (pySlice text start (chunkEnd text chunk_size start)) = [] then acc
         else acc ++ [pyStrip (pySlice text start (chunkEnd text chunk_size start))])
    else some acc

/-- `chunk_text` (text_utils.py lines 21-59).  The fuel bounds the number
of loop iterations; a result `some chunks` means the Python function
returns `chunks` within that many iterations. -/
def chunk_text (text : Str) (chunk_size overlap : Nat) (fuel : Nat) : Option (List Str) :=
  if text.length ≤ chunk_size then some [text]
  else chunkLoop text chunk_size overlap fuel 0 []

/-- `EMBEDDING_DIMENSION` (config.py line 35): the configured vector
dimensionality D. -/
def EMBEDDING_DIMENSION : Nat := 3072

/-- `GeminiClient.generate_embeddings` (llm_client.py lines 38-57), as a
function of the external model call's outcome: the result of
`genai.embed_content(...)['embedding']`, or the exception it raised.
The code forwards a returned vector unchanged and wraps any exception. -/
def generate_embeddings (externalCall : Except Str (List Int)) : Except Str (List Int) :=
  match externalCall with
  | Except.ok v => Except.ok v
  | Except.error e => Except.error (("Failed to generate embeddings: ".data) ++ e)

/-- Base metadata built by `DocumentProcessor.process_document`
(document_processor.py lines 59-63). -/
structure MetaBase where
  filename : Str
  file_type : Str
  total_chunks : Nat
deriving DecidableEq

/-- Per-chunk metadata: a copy of the base metadata with `chunk_index`
set (rag_engine.py lines 46-49). -/
structure ChunkMeta where
  filename : Str
  file_type : Str
  total_chunks : Nat
  chunk_index : Nat
deriving DecidableEq

/-- `base_metadata.copy()` followed by `chunk_metadata['chunk_index'] = i`. -/
def setChunkIndex (m : MetaBase) (i : Nat) : ChunkMeta :=
  ⟨m.filename, m.file_type, m.total_chunks, i⟩

/-- A Qdrant point as assembled by `VectorStore.add_documents`
(vector_store.py lines 69-82): id, vector, and the payload fields. -/
structure QdrantPoint where
  id : Str
  vector : List Int
  filename : Str
  file_type : Str
  total_chunks : Nat
  chunk_index : Nat
  text : Str
  timestamp : Str
deriving DecidableEq

/-- `VectorStore.add_documents` (vector_store.py lines 48-95).  `ids`
models the stream of `uuid.uuid4()` draws, `timestamp` the wall clock,
and `upsertOutcome` the external `client.upsert` call.  Python's
three-way `zip` truncates to the shortest input. -/
def add_documents (texts : List Str) (embeddings : List (List Int))
    (metadata : List ChunkMeta) (ids : Nat → Str) (timestamp : Str)
    (upsertOutcome : Except Str Unit) : Except Str (List Str × List QdrantPoint) :=
  match upsertOutcome with
  | Except.error e => Except.error e
  | Except.ok _ =>
    Except.ok
      (((texts.zip (embeddings.zip metadata)).enum).map (fun p => ids p.1),
       ((texts.zip (embeddings.zip metadata)).enum).map
         (fun p => ⟨ids p.1, p.2.2.1, p.2.2.2.filename, p.2.2.2.file_type,
                    p.2.2.2.total_chunks, p.2.2.2.chunk_index, p.2.1, timestamp⟩))

/-- `DocumentProcessor.process_document` (document_processor.py lines
27-66) after the type-dispatched raw extraction and `clean_text`
normalisation, which involve file parsing and are modelled by the
`extract` outcome (the cleaned text, or the extraction error).  The
embedding covers the empty-text guard, the 1000/200 chunking call and
the metadata assembly.  The fuel `text.length` is sufficient for the
1000/200 parameters (see `chunkLoop_terminates`), so the `none` branch
is unreachable. -/
def process_document (extract : Except Str Str) (filename file_type : Str) :
    Except Str (List Str × MetaBase) :=
  match extract with
  | Except.error e => Except.error e
  | Except.ok text =>
    if pyStrip text = [] then Except.error ("No text could be extracted from document".data)
    else
      match chunk_text text 1000 200 text.length with
      | none => Except.error ("chunking did not terminate".data)
      | some chunks => Except.ok (chunks, ⟨filename, file_type, chunks.length⟩)

/-- The sequential per-chunk embedding loop of
`RAGEngine.process_and_store_document` (rag_engine.py lines 39-42): the
first failing call aborts the loop with its error. -/
def embedAll (embed : Str → Except Str (List Int)) : List Str → Except Str (List (List Int))
  | [] => Except.ok []
  | c :: cs =>
    match embed c with
    | Except.error e => Except.error e
    | Except.ok v =>
      match embedAll embed cs with
      | Except.error e => Except.error e
      | Except.ok vs => Except.ok (v :: vs)

/-- The success dict of `process_and_store_document`
(rag_engine.py lines 63-69); `success: True` is implied by `Except.ok`. -/
structure IngestResult where
  message : Str
  document_ids : List Str
  filename : Str
  chunks_count : Nat
deriving DecidableEq

/-- Observable side effects of one ingest request: the batch handed to
`vector_store.add_documents` (if it was invoked at all), and whether
`delete_file` was invoked on the temporary upload. -/
structure IngestTrace where
  upsertBatch : Option (List Str × List (List Int) × List ChunkMeta)
  fileDeleteAttempted : Bool
deriving DecidableEq

/-- `RAGEngine.process_and_store_document` (rag_engine.py lines 20-75),
as a function of the document-processing outcome and the external
collaborators; paired with the side-effect trace.  `delete_file`
(file_utils.py lines 79-91) is called on the success path (line 59) and
in the `except` handler (line 74) before re-raising. -/
def process_and_store_document (procResult : Except Str (List Str × MetaBase))
    (embed : Str → Except Str (List Int)) (ids : Nat → Str) (timestamp : Str)
    (upsertOutcome : Except Str Unit) : Except Str IngestResult × IngestTrace :=
  match procResult with
  | Except.error e => (Except.error e, ⟨none, true⟩)
  | Except.ok (chunks, base) =>
    if chunks = [] then
      (Except.error ("No text chunks extracted from document".data), ⟨none, true⟩)
    else
      match embedAll embed chunks with
      | Except.error e => (Except.error e, ⟨none, true⟩)
      | Except.ok embeddings =>
        match add_documents chunks embeddings ((List.range chunks.length).map (setChunkIndex base))
            ids timestamp upsertOutcome with
        | Except.error e =>
          (Except.error e,
           ⟨some (chunks, embeddings, (List.range chunks.length).map (setChunkIndex base)), true⟩)
        | Except.ok (doc_ids, _) =>
          (Except.ok ⟨("Document processed and stored successfully".data), doc_ids,
                      base.filename, chunks.length⟩,
           ⟨some (chunks, embeddings, (List.range chunks.length).map (setChunkIndex base)), true⟩)

/-- One formatted similarity-search hit (vector_store.py lines 140-147):
id, score, text payload, and the `filename` metadata entry when the
payload has one. -/
structure SearchResult where
  id : Str
  score : Int
  text : Str
  filename : Option Str
deriving DecidableEq

/-- The dict returned by `RAGEngine.query` (rag_engine.py lines 116-121
and 136-142).  `relevance_scores` is only present on the grounded path. -/
structure QueryResult where
  response : Str
  conversation_id : Str
  sources : List Str
  has_context : Bool
  relevance_scores : Option (List Int)
deriving DecidableEq

/-- The conversation-id defaulting of `query` (rag_engine.py lines
96-97): `if not conversation_id` is Python falsiness, which replaces
both a missing id and an empty string by a fresh `uuid.uuid4()`. -/
def resolveConversationId (conversation_id : Option Str) (freshId : Str) : Str :=
  match conversation_id with
  | none => freshId
  | some s => if s = [] then freshId else s

/-- The prompt of the ungrounded path (rag_engine.py lines 112-115). -/
def noContextPrompt (user_query : Str) : Str :=
  ("Answer this question: ".data) ++ user_query ++
    ("\n\nNote: No reference documents are available.".data)

/-- The grounded prompt built by `GeminiClient.generate_rag_response`
(llm_client.py lines 96-111): passages enumerated as Document 1, 2, ...
in retrieval order. -/
def ragPrompt (user_query : Str) (context : List Str) : Str :=
  ("You are a helpful AI assistant. Answer the user's question based on the provided context documents.\n\nContext Documents:\n".data) ++
    List.intercalate ("\n\n".data)
      (context.enum.map
        (fun p => ("Document ".data) ++ (toString (p.1 + 1)).data ++ (":\n".data) ++ p.2)) ++
    ("\n\nUser Question: ".data) ++ user_query ++
    ("\n\nInstructions:\n- Answer based primarily on the context provided\n- If the context doesn't contain enough information, say so\n- Be concise and accurate\n- Cite which document number you're referencing when relevant\n\nAnswer:".data)

/-- `RAGEngine.query` (rag_engine.py lines 77-146), as a function of the
external collaborators: `embedOutcome` is the query-embedding call,
`searchF` the vector-store search on the produced embedding, `genF` the
generation model applied to the assembled prompt.  `list(set(...))` on
line 125 deduplicates with unspecified order; it is modelled as
`List.dedup` (first occurrences kept). -/
def query (user_query : Str) (conversation_id : Option Str) (freshId : Str)
    (embedOutcome : Except Str (List Int))
    (searchF : List Int → Except Str (List SearchResult))
    (genF : Str → Except Str Str) : Except Str QueryResult :=
  match embedOutcome with
  | Except.error e => Except.error e
  | Except.ok query_embedding =>
    match searchF query_embedding with
    | Except.error e => Except.error e
    | Except.ok search_results =>
      if search_results = [] then
        match genF (noContextPrompt user_query) with
        | Except.error e => Except.error e
        | Except.ok response =>
          Except.ok ⟨response, resolveConversationId conversation_id freshId, [], false, none⟩
      else
        match genF (ragPrompt user_query (search_results.map SearchResult.text)) with
        | Except.error e => Except.error e
        | Except.ok response =>
          Except.ok ⟨response, resolveConversationId conversation_id freshId,
                     (search_results.map (fun r => r.filename.getD ("Unknown".data))).dedup,
                     true, some (search_results.map SearchResult.score)⟩

-- Sanity checks of the embedding against the Python reference behaviour.
example : pyRfind ("abcd.efghijklmnopqrs".data) '.' (-90) 10 = 4 := by decide
example : pyRfind ("abc.".data) '.' (-90) 4 = 3 := by decide
example : pyStrip ("  ab c \t".data) = "ab c".data := by decide
example : chunk_text ("hello".data) 1000 200 0 = some ["hello".data] := by rfl
example : chunkEnd ("abcd.efghijklmnopqrs".data) 10 0 = 5 := by decide
example : chunk_text ("abcd.efghijklmnopqrs".data) 10 5 30 = none := by decide
example : chunk_text ("ab".data) 1 0 2 = some ["a".data, "b".data] := by decide

/-! ### Helper lemmas about the Python string primitives -/

theorem dropWhile_self_dropWhile (p : Char → Bool) (l : List Char) :
    List.dropWhile p (List.dropWhile p l) = List.dropWhile p l := by
  induction l with
  | nil => rfl
  | cons a l ih =>
    by_cases h : p a
    · simp only [List.dropWhile_cons, if_pos h]
      exact ih
    · simp only [List.dropWhile_cons, if_neg h]

theorem dropWhile_eq_drop (p : Char → Bool) (l : List Char) :
    ∃ m, List.dropWhile p l = l.drop m := by
  induction l with
  | nil => exact ⟨0, rfl⟩
  | cons a l ih =>
    by_cases h : p a
    · obtain ⟨m, hm⟩ := ih
      exact ⟨m + 1, by simp only [List.dropWhile_cons, if_pos h, List.drop_succ_cons, hm]⟩
    · exact ⟨0, by simp only [List.dropWhile_cons, if_neg h, List.drop_zero]⟩

theorem dropWhile_head_false (p : Char → Bool) (l : List Char) (x : Char) (xs : List Char)
    (h : List.dropWhile p l = x :: xs) : p x = false := by
  induction l with
  | nil => simp at h
  | cons a l ih =>
    by_cases hp : p a
    · rw [List.dropWhile_cons, if_pos hp] at h
      exact ih h
    · rw [List.dropWhile_cons, if_neg hp] at h
      injection h with h1 _
      subst h1
      exact Bool.eq_false_iff.mpr hp

theorem dropWhile_all_false (p : Char → Bool) (l : List Char) (h : ∀ c ∈ l, p c = false) :
    List.dropWhile p l = l := by
  cases l with
  | nil => rfl
  | cons a l =>
    rw [List.dropWhile_cons, if_neg (by simp [h a (by simp)])]

theorem take_eq_cons (u : List Char) (k : Nat) (x : Char) (xs : List Char)
    (h : u.take k = x :: xs) : ∃ t, u = x :: t := by
  cases u with
  | nil => simp at h
  | cons y ys =>
    cases k with
    | zero => simp at h
    | succ k =>
      simp only [List.take] at h
      injection h with h1 _
      exact ⟨ys, by rw [h1]⟩

theorem pyStrip_eq_self (s : Str) (h : ∀ c ∈ s, pyIsSpace c = false) : pyStrip s = s := by
  rw [pyStrip, dropWhile_all_false pyIsSpace s h,
      dropWhile_all_false pyIsSpace s.reverse (fun c hc => h c (List.mem_reverse.mp hc)),
      List.reverse_reverse]

theorem pyStrip_idem (s : Str) : pyStrip (pyStrip s) = pyStrip s := by
  have key1 : List.dropWhile pyIsSpace (pyStrip s) = pyStrip s := by
    obtain ⟨m, hm⟩ := dropWhile_eq_drop pyIsSpace (List.dropWhile pyIsSpace s).reverse
    have ht : pyStrip s =
        (List.dropWhile pyIsSpace s).take ((List.dropWhile pyIsSpace s).length - m) := by
      rw [pyStrip, hm, List.reverse_drop, List.reverse_reverse, List.length_reverse]
    rcases htake : (List.dropWhile pyIsSpace s).take ((List.dropWhile pyIsSpace s).length - m)
        with _ | ⟨x, xs⟩
    · rw [ht, htake]
      rfl
    · obtain ⟨t, ht2⟩ := take_eq_cons _ _ _ _ htake
      have hx : pyIsSpace x = false := dropWhile_head_false pyIsSpace s x t ht2
      rw [ht, htake, List.dropWhile_cons, if_neg (by simp [hx])]
  have key2 : (pyStrip s).reverse = List.dropWhile pyIsSpace (List.dropWhile pyIsSpace s).reverse := by
    rw [pyStrip, List.reverse_reverse]
  conv_lhs => rw [pyStrip, key1, key2, dropWhile_self_dropWhile]
  rw [pyStrip]

theorem pyIdx_le (n : Nat) (i : Int) : pyIdx n i ≤ n := by
  rw [pyIdx]
  split
  · omega
  · exact min_le_right _ _

theorem pyIdx_of_nonneg_lt (n : Nat) (i : Int) (h0 : 0 ≤ i) (hn : i < (n : Int)) :
    ((pyIdx n i : Nat) : Int) = i := by
  rw [pyIdx, if_neg (by omega)]
  have h1 : i.toNat ≤ n := by omega
  rw [min_eq_left h1]
  omega

theorem mem_of_mem_pySlice (s : Str) (a b : Int) (c : Char) (h : c ∈ pySlice s a b) : c ∈ s := by
  rw [pySlice] at h
  exact List.mem_of_mem_take (List.mem_of_mem_drop h)

theorem pySlice_length (s : Str) (a b : Int) :
    (pySlice s a b).length = pyIdx s.length b - pyIdx s.length a := by
  rw [pySlice, List.length_drop, List.length_take, min_eq_left (pyIdx_le s.length b)]

theorem rfindAux_cases (s : Str) (c : Char) (a : Nat) :
    ∀ k, rfindAux s c a k = -1 ∨
      ((a : Int) ≤ rfindAux s c a k ∧ rfindAux s c a k < (a : Int) + k)
  | 0 => Or.inl rfl
  | k+1 => by
    rw [rfindAux]
    by_cases h : s.getD (a + k) ' ' = c
    · rw [if_pos h]
      right
      constructor <;> push_cast <;> omega
    · rw [if_neg h]
      rcases rfindAux_cases s c a k with h1 | ⟨h1, h2⟩
      · exact Or.inl h1
      · right
        refine ⟨h1, ?_⟩
        push_cast at h2 ⊢
        omega

theorem getD_mem_or (s : Str) (j : Nat) (d : Char) : s.getD j d ∈ s ∨ s.getD j d = d := by
  by_cases h : j < s.length
  · left
    rw [List.getD_eq_getElem s d h]
    exact List.getElem_mem h
  · right
    exact List.getD_eq_default s d (le_of_not_lt h)

theorem rfindAux_of_not_mem (s : Str) (c : Char) (a : Nat) (hc : c ∉ s) (hsp : c ≠ ' ') :
    ∀ k, rfindAux s c a k = -1
  | 0 => rfl
  | k+1 => by
    rw [rfindAux, if_neg, rfindAux_of_not_mem s c a hc hsp k]
    intro h
    rcases getD_mem_or s (a + k) ' ' with hm | hd
    · rw [h] at hm
      exact hc hm
    · rw [h] at hd
      exact hsp hd

theorem pyRfind_not_mem (s : Str) (c : Char) (a b : Int) (hc : c ∉ s) (hsp : c ≠ ' ') :
    pyRfind s c a b = -1 :=
  rfindAux_of_not_mem s c _ hc hsp _

theorem pyRfind_cases (s : Str) (c : Char) (a b : Int) :
    pyRfind s c a b = -1 ∨
      ((pyIdx s.length a : Int) ≤ pyRfind s c a b ∧
        pyRfind s c a b < (pyIdx s.length b : Int)) := by
  rw [pyRfind]
  rcases rfindAux_cases s c (pyIdx s.length a) (pyIdx s.length b - pyIdx s.length a)
    with h | ⟨h1, h2⟩
  · exact Or.inl h
  · right
    refine ⟨h1, ?_⟩
    omega

/-! ### Helper lemmas about the chunking loop -/

theorem chunkEnd_of_no_term (text : Str) (cs : Nat) (start : Int)
    (hd : '.' ∉ text) (hq : '?' ∉ text) (he : '!' ∉ text) (h0 : 0 ≤ start) :
    chunkEnd text cs start = start + cs := by
  rw [chunkEnd, pyRfind_not_mem text '.' _ _ hd (by decide),
      pyRfind_not_mem text '?' _ _ hq (by decide),
      pyRfind_not_mem text '!' _ _ he (by decide)]
  rw [max_self, max_self, if_neg (show ¬ start < (-1 : Int) by omega)]
  rw [ite_self]

theorem chunkEnd_progress (text : Str) (cs ov : Nat) (start : Int)
    (h0 : 0 ≤ start) (hcs : (ov : Int) + 100 ≤ (cs : Int)) :
    start + ov < chunkEnd text cs start := by
  rw [chunkEnd]
  by_cases hA : start + (cs : Int) < (text.length : Int)
  · rw [if_pos hA]
    by_cases hB : start <
        max (max (pyRfind text '.' (start + cs - 100) (start + cs))
                 (pyRfind text '?' (start + cs - 100) (start + cs)))
            (pyRfind text '!' (start + cs - 100) (start + cs))
    · rw [if_pos hB]
      have hlow : ((pyIdx text.length (start + (cs : Int) - 100) : Nat) : Int) =
          start + cs - 100 :=
        pyIdx_of_nonneg_lt _ _ (by omega) (by omega)
      have H1 := pyRfind_cases text '.' (start + cs - 100) (start + cs)
      have H2 := pyRfind_cases text '?' (start + cs - 100) (start + cs)
      have H3 := pyRfind_cases text '!' (start + cs - 100) (start + cs)
      rcases max_choice (max (pyRfind text '.' (start + cs - 100) (start + cs))
          (pyRfind text '?' (start + cs - 100) (start + cs)))
          (pyRfind text '!' (start + cs - 100) (start + cs)) with hm | hm
      · rcases max_choice (pyRfind text '.' (start + cs - 100) (start + cs))
            (pyRfind text '?' (start + cs - 100) (start + cs)) with hm2 | hm2
        · rw [hm, hm2] at hB ⊢
          rcases H1 with hne | ⟨hl, _⟩
          · omega
          · omega
        · rw [hm, hm2] at hB ⊢
          rcases H2 with hne | ⟨hl, _⟩
          · omega
          · omega
      · rw [hm] at hB ⊢
        rcases H3 with hne | ⟨hl, _⟩
        · omega
        · omega
    · rw [if_neg hB]
      omega
  · rw [if_neg hA]
    omega

theorem chunkLoop_stop (text : Str) (cs ov : Nat) (fuel : Nat) (start : Int) (acc : List Str)
    (h : ¬ start < (text.length : Int)) :
    chunkLoop text cs ov fuel start acc = some acc := by
  cases fuel <;> simp only [chunkLoop, if_neg h]

theorem chunkLoop_succ_lt (text : Str) (cs ov : Nat) (fuel : Nat) (start : Int) (acc : List Str)
    (h : start < (text.length : Int)) :
    chunkLoop text cs ov (fuel + 1) start acc =
      chunkLoop text cs ov fuel (chunkEnd text cs start - ov)
        (if pyStrip (pySlice text start (chunkEnd text cs start)) = [] then acc
         else acc ++ [pyStrip (pySlice text start (chunkEnd text cs start))]) := by
  conv_lhs => rw [chunkLoop]
  rw [if_pos h]

theorem chunkLoop_terminates (text : Str) (cs ov : Nat) (hcs : (ov : Int) + 100 ≤ (cs : Int)) :
    ∀ (fuel : Nat) (start : Int) (acc : List Str), 0 ≤ start →
      (text.length : Int) ≤ start + fuel →
      ∃ r, chunkLoop text cs ov fuel start acc = some r
  | 0, start, acc, _, hb => ⟨acc, chunkLoop_stop _ _ _ _ _ _ (by push_cast at hb; omega)⟩
  | fuel+1, start, acc, h0, hb => by
    by_cases hlt : start < (text.length : Int)
    · rw [chunkLoop_succ_lt _ _ _ _ _ _ hlt]
      have hp := chunkEnd_progress text cs ov start h0 hcs
      refine chunkLoop_terminates text cs ov hcs fuel (chunkEnd text cs start - ov) _
        (by omega) ?_
      push_cast at hb ⊢
      omega
    · exact ⟨acc, chunkLoop_stop _ _ _ _ _ _ hlt⟩

theorem chunkLoop_chunks (text : Str) (cs ov : Nat) :
    ∀ (fuel : Nat) (start : Int) (acc r : List Str),
      chunkLoop text cs ov fuel start acc = some r →
      (∀ c ∈ acc, pyStrip c = c ∧ c ≠ []) →
      ∀ c ∈ r, pyStrip c = c ∧ c ≠ []
  | 0, start, acc, r, h, hacc => by
    rw [chunkLoop] at h
    split at h
    · exact absurd h (by simp)
    · injection h with h1
      exact h1 ▸ hacc
  | fuel+1, start, acc, r, h, hacc => by
    by_cases hlt : start < (text.length : Int)
    · rw [chunkLoop_succ_lt _ _ _ _ _ _ hlt] at h
      refine chunkLoop_chunks text cs ov fuel _ _ r h ?_
      split
      · exact hacc
      · intro c hc
        rcases List.mem_append.mp hc with hc1 | hc2
        · exact hacc c hc1
        · rw [List.mem_singleton.mp hc2]
          refine ⟨pyStrip_idem _, ?_⟩
          next hne => exact hne
    · rw [chunkLoop_stop _ _ _ _ _ _ hlt] at h
      injection h with h1
      exact h1 ▸ hacc

/-- The 2500-character scenario, for a text with no sentence terminators
and no whitespace: window starts are 0, 800, 1600, 2400 (the window
starting at 2400 lies before the end 2500, so a fourth chunk is
produced), raw window ends are 1000, 1800, 2600, 3400 (clamped by the
slice), and no chunk is trimmed or dropped. -/
theorem chunk_text_2500_core (text : Str) (hlen : text.length = 2500)
    (hd : '.' ∉ text) (hq : '?' ∉ text) (he : '!' ∉ text)
    (hsp : ∀ c ∈ text, pyIsSpace c = false) (fuel : Nat) :
    chunk_text text 1000 200 (fuel + 4) =
      some [pySlice text 0 1000, pySlice text 800 1800,
            pySlice text 1600 2600, pySlice text 2400 3400] := by
  have hstrip : ∀ a b : Int, pyStrip (pySlice text a b) = pySlice text a b :=
    fun a b => pyStrip_eq_self _ (fun c hc => hsp c (mem_of_mem_pySlice _ _ _ _ hc))
  have hslice_len : ∀ a b : Int, (pySlice text a b).length = pyIdx 2500 b - pyIdx 2500 a := by
    intro a b
    rw [pySlice_length, hlen]
  have hne : ∀ a b : Int, pyIdx 2500 b - pyIdx 2500 a ≠ 0 → pySlice text a b ≠ [] := by
    intro a b hd0 hnil
    have hl := hslice_len a b
    rw [hnil] at hl
    simp only [List.length_nil] at hl
    exact hd0 (by omega)
  have hce : ∀ s : Int, 0 ≤ s → chunkEnd text 1000 s = s + 1000 :=
    fun s h => chunkEnd_of_no_term text 1000 s hd hq he h
  have hf : fuel + 4 = (((fuel + 1) + 1) + 1) + 1 := by omega
  rw [hf, chunk_text, if_neg (show ¬ text.length ≤ 1000 by omega)]
  rw [chunkLoop_succ_lt _ _ _ _ _ _ (show (0 : Int) < (text.length : Int) by omega)]
  rw [hce 0 (by norm_num)]
  norm_num
  rw [hstrip 0 1000, if_neg (hne 0 1000 (by decide))]
  rw [chunkLoop_succ_lt _ _ _ _ _ _ (show (800 : Int) < (text.length : Int) by omega)]
  rw [hce 800 (by norm_num)]
  norm_num
  rw [hstrip 800 1800, if_neg (hne 800 1800 (by decide))]
  rw [chunkLoop_succ_lt _ _ _ _ _ _ (show (1600 : Int) < (text.length : Int) by omega)]
  rw [hce 1600 (by norm_num)]
  norm_num
  rw [hstrip 1600 2600, if_neg (hne 1600 2600 (by decide))]
  rw [chunkLoop_succ_lt _ _ _ _ _ _ (show (2400 : Int) < (text.length : Int) by omega)]
  rw [hce 2400 (by norm_num)]
  norm_num
  rw [hstrip 2400 3400, if_neg (hne 2400 3400 (by decide))]
  rw [chunkLoop_stop _ _ _ _ _ _ (show ¬ (3200 : Int) < (text.length : Int) by omega)]

/-- On the 20-character text `"abcd.efghijklmnopqrs"` with
`chunk_size = 10, overlap = 5`, every iteration recomputes
`break_point = 4`, sets `end = 5` and returns to `start = 5 - 5 = 0`:
the Python loop never terminates, whatever the fuel. -/
theorem chunkLoop_stuck : ∀ (fuel : Nat) (acc : List Str),
    chunkLoop ("abcd.efghijklmnopqrs".data) 10 5 fuel 0 acc = none
  | 0, _ => by rw [chunkLoop, if_pos (by decide)]
  | fuel+1, acc => by
    rw [chunkLoop_succ_lt _ _ _ _ _ _ (by decide)]
    rw [show chunkEnd ("abcd.efghijklmnopqrs".data) 10 0 = 5 from by decide]
    norm_num
    rw [show pyStrip (pySlice ("abcd.efghijklmnopqrs".data) 0 5) = ("abcd.".data) from by decide]
    rw [if_neg (by decide)]
    exact chunkLoop_stuck fuel (acc ++ ["abcd.".data])

/-! ### Helper lemmas about the orchestration layer -/

theorem embedAll_length (embed : Str → Except Str (List Int)) :
    ∀ (l : List Str) (vs : List (List Int)),
      embedAll embed l = Except.ok vs → vs.length = l.length
  | [], vs, h => by
    rw [embedAll] at h
    injection h with h1
    rw [← h1]
    rfl
  | c :: cs, vs, h => by
    rw [embedAll] at h
    split at h
    · exact absurd h (by simp)
    · split at h
      · exact absurd h (by simp)
      · next v hv vs' hvs =>
        injection h with h1
        rw [← h1, List.length_cons, List.length_cons,
            embedAll_length embed cs vs' hvs]

theorem query_ok_conversation_id (uq : Str) (cid : Option Str) (freshId : Str)
    (emb : Except Str (List Int)) (searchF : List Int → Except Str (List SearchResult))
    (genF : Str → Except Str Str) (r : QueryResult)
    (h : query uq cid freshId emb searchF genF = Except.ok r) :
    r.conversation_id = resolveConversationId cid freshId := by
  rw [query.eq_def] at h
  split at h
  · exact absurd h (by simp)
  · split at h
    · exact absurd h (by simp)
    · split at h
      · split at h
        · exact absurd h (by simp)
        · injection h with h1
          rw [← h1]
      · split at h
        · exact absurd h (by simp)
        · injection h with h1
          rw [← h1]

/-! ### Claim theorems -/

/-- Claim C1 counterexample: `chunk_size = 10` and `overlap = 5` are valid
parameters (positive size, `0 ≤ overlap < chunk_size`), yet on the
20-character text `"abcd.efghijklmnopqrs"` the sliding-window loop of
`chunk_text` sets `end = break_point + 1 = 5` and
`start = end - overlap = 0` at every iteration: it never makes progress,
so no amount of fuel produces a result. -/
theorem c1_termination_cex :
    ¬ ∃ (fuel : Nat) (r : List Str),
        chunk_text ("abcd.efghijklmnopqrs".data) 10 5 fuel = some r := by
  rintro ⟨fuel, r, h⟩
  rw [chunk_text, if_neg (by decide), chunkLoop_stuck fuel []] at h
  exact absurd h (by simp)

/-- Claim C1 (amended): for every text, `chunk_size > 0` and
`0 ≤ overlap < chunk_size` with additionally
`overlap + 100 ≤ chunk_size` (the sentence-search margin; satisfied by
the deployed configuration 1000/200), `chunk_text` terminates within
`text.length` loop iterations and returns a finite chunk list. -/
theorem c1_termination_amended (text : Str) (chunk_size overlap : Nat)
    (_hpos : 0 < chunk_size) (_hov : overlap < chunk_size)
    (hmargin : overlap + 100 ≤ chunk_size) :
    ∃ r, chunk_text text chunk_size overlap text.length = some r := by
  by_cases h : text.length ≤ chunk_size
  · exact ⟨[text], by rw [chunk_text, if_pos h]⟩
  · rw [chunk_text, if_neg h]
    exact chunkLoop_terminates text chunk_size overlap (by omega)
      text.length 0 [] le_rfl (by omega)

/-- Claim C1 witness: the amended termination theorem applied to the
deployed parameters 1000/200 on a short text. -/
theorem c1_termination_witness :
    0 < 1000 ∧ 200 < 1000 ∧ 200 + 100 ≤ 1000 ∧
      ∃ r, chunk_text ("hello world".data) 1000 200 (("hello world".data).length) = some r :=
  ⟨by norm_num, by norm_num, by norm_num,
    c1_termination_amended ("hello world".data) 1000 200 (by norm_num) (by norm_num)
      (by norm_num)⟩

/-- Claim C2 counterexample: on the 2500-character text of 2500 `'a'`s —
no sentence terminator and no whitespace, so no boundary adjustment
applies — `chunk_text(text, 1000, 200)` returns 4 chunks, not 3: window
starts are 0, 800, 1600 and 2400, and since 2400 < 2500 a fourth
(redundant) chunk `text[2400:2500]` is emitted. -/
theorem c2_chunk_count_cex :
    (chunk_text (List.replicate 2500 'a') 1000 200 4).map List.length = some 4 ∧
      (chunk_text (List.replicate 2500 'a') 1000 200 4).map List.length ≠ some 3 := by
  have h := chunk_text_2500_core (List.replicate 2500 'a') (by rw [List.length_replicate])
    (by intro hm; exact absurd (List.eq_of_mem_replicate hm) (by decide))
    (by intro hm; exact absurd (List.eq_of_mem_replicate hm) (by decide))
    (by intro hm; exact absurd (List.eq_of_mem_replicate hm) (by decide))
    (fun c hc => by rw [List.eq_of_mem_replicate hc]; rfl) 0
  simp only [Nat.zero_add] at h
  rw [h]
  exact ⟨rfl, by decide⟩

/-- Claim C2 (amended): for every 2500-character text containing no
sentence terminator (`.`, `?`, `!`) and no whitespace — so that no
boundary adjustment and no trimming applies — `chunk_text(text, 1000,
200)` returns exactly FOUR chunks (not three): `text[0:1000]`,
`text[800:1800]`, `text[1600:2500]` and the redundant tail
`text[2400:2500]`; the second chunk begins at
`chunk_size - overlap = 800` characters into the source. -/
theorem c2_chunk_count_amended (text : Str) (fuel : Nat) (hlen : text.length = 2500)
    (hd : '.' ∉ text) (hq : '?' ∉ text) (he : '!' ∉ text)
    (hsp : ∀ c ∈ text, pyIsSpace c = false) :
    chunk_text text 1000 200 (fuel + 4) =
      some [pySlice text 0 1000, pySlice text 800 1800,
            pySlice text 1600 2600, pySlice text 2400 3400] ∧
      pySlice text 800 1800 = (text.take 1800).drop 800 := by
  refine ⟨chunk_text_2500_core text hlen hd hq he hsp fuel, ?_⟩
  rw [pySlice, hlen, show pyIdx 2500 1800 = 1800 from by decide,
      show pyIdx 2500 800 = 800 from by decide]

/-- Claim C2 witness: the amended theorem applied to the all-`'a'`
2500-character text. -/
theorem c2_chunk_count_witness :
    (List.replicate 2500 'a').length = 2500 ∧
      (chunk_text (List.replicate 2500 'a') 1000 200 (0 + 4) =
        some [pySlice (List.replicate 2500 'a') 0 1000,
              pySlice (List.replicate 2500 'a') 800 1800,
              pySlice (List.replicate 2500 'a') 1600 2600,
              pySlice (List.replicate 2500 'a') 2400 3400] ∧
       pySlice (List.replicate 2500 'a') 800 1800 =
         ((List.replicate 2500 'a').take 1800).drop 800) :=
  ⟨by rw [List.length_replicate],
    c2_chunk_count_amended (List.replicate 2500 'a') 0 (by rw [List.length_replicate])
      (by intro hm; exact absurd (List.eq_of_mem_replicate hm) (by decide))
      (by intro hm; exact absurd (List.eq_of_mem_replicate hm) (by decide))
      (by intro hm; exact absurd (List.eq_of_mem_replicate hm) (by decide))
      (fun c hc => by rw [List.eq_of_mem_replicate hc]; rfl)⟩

/-- Claim C7 counterexample: on the empty text (length ≤ chunk_size) the
fast path returns `[""]`: the returned sequence contains an empty,
un-dropped chunk, so the "every chunk trimmed and non-empty" guarantee
fails for this input. -/
theorem c7_chunks_trimmed_cex :
    chunk_text ([] : Str) 1000 200 0 = some [[]] ∧
      ¬ (∀ c ∈ [([] : Str)], pyStrip c = c ∧ c ≠ []) :=
  ⟨rfl, by decide⟩

/-- Claim C7 (amended): for every text strictly LONGER than `chunk_size`
(so that the sliding-window loop runs rather than the `[text]` fast
path), every chunk in a returned sequence equals its own strip and is
non-empty — the loop appends `text[start:end].strip()` only when
non-empty.  The fast path is excluded: it returns `[text]` untrimmed,
even when `text` is empty. -/
theorem c7_chunks_trimmed_amended (text : Str) (chunk_size overlap fuel : Nat)
    (r : List Str) (hlong : chunk_size < text.length)
    (h : chunk_text text chunk_size overlap fuel = some r) :
    ∀ c ∈ r, pyStrip c = c ∧ c ≠ [] := by
  rw [chunk_text, if_neg (by omega)] at h
  exact chunkLoop_chunks text chunk_size overlap fuel 0 [] r h
    (by intro c hc; exact absurd hc (List.not_mem_nil c))

/-- Claim C7 witness: the amended theorem applied to `"ab"` with
`chunk_size = 1, overlap = 0`. -/
theorem c7_chunks_trimmed_witness :
    1 < ("ab".data).length ∧ chunk_text ("ab".data) 1 0 2 = some ["a".data, "b".data] ∧
      ∀ c ∈ ["a".data, "b".data], pyStrip c = c ∧ c ≠ [] :=
  ⟨by decide, by decide,
    c7_chunks_trimmed_amended ("ab".data) 1 0 2 ["a".data, "b".data] (by decide) (by decide)⟩

/-- Claim C8: whenever `len(text) ≤ chunk_size`, `chunk_text` returns the
single-element sequence containing the whole text, for any overlap and
any fuel. -/
theorem c8_short_text (text : Str) (chunk_size overlap fuel : Nat)
    (h : text.length ≤ chunk_size) :
    chunk_text text chunk_size overlap fuel = some [text] := by
  rw [chunk_text, if_pos h]

/-- Claim C8 witness: `"hi"` with the deployed 1000/200 parameters. -/
theorem c8_short_text_witness :
    ("hi".data).length ≤ 1000 ∧ chunk_text ("hi".data) 1000 200 7 = some ["hi".data] :=
  ⟨by decide, c8_short_text ("hi".data) 1000 200 7 (by decide)⟩

/-- Claim C3 counterexample: the external embedding call returns the
1-dimensional vector `[0]`, whose length differs from
`EMBEDDING_DIMENSION = 3072`; `generate_embeddings` does not fail —
it forwards the vector — and an ingest built on it hands the mismatched
vector to `add_documents`, i.e. the vector reaches the upsert batch. -/
theorem c3_dimension_check_cex :
    generate_embeddings (Except.ok [(0 : Int)]) = Except.ok [(0 : Int)] ∧
      [(0 : Int)].length ≠ EMBEDDING_DIMENSION ∧
      (process_and_store_document
          (Except.ok ([("a".data)], ⟨"doc.txt".data, "txt".data, 1⟩))
          (fun _ => generate_embeddings (Except.ok [(0 : Int)]))
          (fun _ => ("id0".data)) ("ts".data) (Except.ok ())).2.upsertBatch =
        some ([("a".data)], [[(0 : Int)]], [⟨"doc.txt".data, "txt".data, 1, 0⟩]) :=
  ⟨rfl, by decide, rfl⟩

/-- Claim C3 (amended): `generate_embeddings` fails (wrapping the
exception message) exactly when the external call raised; a vector the
external call returns is forwarded UNCHANGED — its length is never
compared with `EMBEDDING_DIMENSION`, so a mismatched vector propagates
to the caller and on to upsert (the external store, not this code,
would reject it). -/
theorem c3_dimension_check_amended :
    (∀ v : List Int, generate_embeddings (Except.ok v) = Except.ok v) ∧
      (∀ e : Str, generate_embeddings (Except.error e) =
        Except.error (("Failed to generate embeddings: ".data) ++ e)) :=
  ⟨fun _ => rfl, fun _ => rfl⟩

/-- Claim C4: `process_and_store_document` attempts the temporary-file
deletion on EVERY path (success or failure); and if the per-chunk
embedding loop fails, the whole ingest fails with that error and
`add_documents` is never invoked (no partial upsert). -/
theorem c4_ingest_failure_semantics (procResult : Except Str (List Str × MetaBase))
    (embed : Str → Except Str (List Int)) (ids : Nat → Str) (timestamp : Str)
    (upsertOutcome : Except Str Unit) :
    (process_and_store_document procResult embed ids timestamp
        upsertOutcome).2.fileDeleteAttempted = true ∧
      (∀ (chunks : List Str) (base : MetaBase) (e : Str),
        procResult = Except.ok (chunks, base) →
        embedAll embed chunks = Except.error e →
        (process_and_store_document procResult embed ids timestamp
            upsertOutcome).1 = Except.error e ∧
          (process_and_store_document procResult embed ids timestamp
              upsertOutcome).2.upsertBatch = none) := by
  constructor
  · rw [process_and_store_document.eq_def]
    split
    · rfl
    · split
      · rfl
      · split
        · rfl
        · split
          · rfl
          · rfl
  · intro chunks base e hpr hemb
    subst hpr
    have hchunks : ¬ chunks = [] := by
      intro hnil
      rw [hnil] at hemb
      exact absurd hemb (by simp [embedAll])
    constructor <;> simp [process_and_store_document, hchunks, hemb]

/-- Claim C4 witness: a one-chunk document whose embedding call fails. -/
theorem c4_ingest_failure_witness :
    embedAll (fun _ => Except.error ("boom".data)) [("a".data)] =
        Except.error ("boom".data) ∧
      (process_and_store_document (Except.ok ([("a".data)], ⟨"f.txt".data, "txt".data, 1⟩))
          (fun _ => Except.error ("boom".data)) (fun _ => ("i".data)) ("ts".data)
          (Except.ok ())).1 = Except.error ("boom".data) ∧
      (process_and_store_document (Except.ok ([("a".data)], ⟨"f.txt".data, "txt".data, 1⟩))
          (fun _ => Except.error ("boom".data)) (fun _ => ("i".data)) ("ts".data)
          (Except.ok ())).2.upsertBatch = none ∧
      (process_and_store_document (Except.ok ([("a".data)], ⟨"f.txt".data, "txt".data, 1⟩))
          (fun _ => Except.error ("boom".data)) (fun _ => ("i".data)) ("ts".data)
          (Except.ok ())).2.fileDeleteAttempted = true :=
  ⟨rfl,
    ((c4_ingest_failure_semantics (Except.ok ([("a".data)], ⟨"f.txt".data, "txt".data, 1⟩))
        (fun _ => Except.error ("boom".data)) (fun _ => ("i".data)) ("ts".data)
        (Except.ok ())).2 [("a".data)] ⟨"f.txt".data, "txt".data, 1⟩ ("boom".data)
        rfl rfl).1,
    ((c4_ingest_failure_semantics (Except.ok ([("a".data)], ⟨"f.txt".data, "txt".data, 1⟩))
        (fun _ => Except.error ("boom".data)) (fun _ => ("i".data)) ("ts".data)
        (Except.ok ())).2 [("a".data)] ⟨"f.txt".data, "txt".data, 1⟩ ("boom".data)
        rfl rfl).2,
    (c4_ingest_failure_semantics (Except.ok ([("a".data)], ⟨"f.txt".data, "txt".data, 1⟩))
        (fun _ => Except.error ("boom".data)) (fun _ => ("i".data)) ("ts".data)
        (Except.ok ())).1⟩

/-- Claim C5: when the similarity search succeeds with the EMPTY result
list, `query` does not raise on the empty retrieval: it invokes the
generation collaborator on the bare question plus the explicit
no-reference note and returns `sources = []` and `has_context = false`. -/
theorem c5_empty_retrieval (user_query : Str) (cid : Option Str) (freshId : Str)
    (qe : List Int) (searchF : List Int → Except Str (List SearchResult))
    (genF : Str → Except Str Str) (resp : Str)
    (hs : searchF qe = Except.ok [])
    (hg : genF (noContextPrompt user_query) = Except.ok resp) :
    query user_query cid freshId (Except.ok qe) searchF genF =
      Except.ok ⟨resp, resolveConversationId cid freshId, [], false, none⟩ := by
  simp [query, hs, hg]

/-- Claim C5 witness: a concrete query over an empty index. -/
theorem c5_empty_retrieval_witness :
    ((fun _ : List Int => (Except.ok ([] : List SearchResult) : Except Str (List SearchResult))) [1] =
        Except.ok ([] : List SearchResult)) ∧
      query ("hi".data) none ("cid".data) (Except.ok [1])
          (fun _ => Except.ok []) (fun _ => Except.ok ("ans".data)) =
        Except.ok ⟨"ans".data, resolveConversationId none ("cid".data), [], false, none⟩ :=
  ⟨rfl, c5_empty_retrieval ("hi".data) none ("cid".data) [1]
    (fun _ => Except.ok []) (fun _ => Except.ok ("ans".data)) ("ans".data) rfl rfl⟩

/-- Claim C6: on a NON-empty retrieval, `query` returns
`has_context = true` and a `sources` list that is duplicate-free and
equal, as a set (order not significant), to the retrieved results'
`filename` metadata values with the sentinel `"Unknown"` substituted
for every result lacking a filename. -/
theorem c6_sources_dedup (user_query : Str) (cid : Option Str) (freshId : Str)
    (qe : List Int) (searchF : List Int → Except Str (List SearchResult))
    (genF : Str → Except Str Str) (results : List SearchResult) (resp : Str)
    (hs : searchF qe = Except.ok results) (hne : results ≠ [])
    (hg : genF (ragPrompt user_query (results.map SearchResult.text)) = Except.ok resp) :
    query user_query cid freshId (Except.ok qe) searchF genF =
      Except.ok ⟨resp, resolveConversationId cid freshId,
        (results.map (fun r => r.filename.getD ("Unknown".data))).dedup, true,
        some (results.map SearchResult.score)⟩ ∧
      ((results.map (fun r => r.filename.getD ("Unknown".data))).dedup).toFinset =
        (results.map (fun r => r.filename.getD ("Unknown".data))).toFinset ∧
      ((results.map (fun r => r.filename.getD ("Unknown".data))).dedup).Nodup ∧
      (⟨resp, resolveConversationId cid freshId,
        (results.map (fun r => r.filename.getD ("Unknown".data))).dedup, true,
        some (results.map SearchResult.score)⟩ : QueryResult).has_context = true := by
  refine ⟨?_, ?_, List.nodup_dedup _, rfl⟩
  · simp [query, hs, hne, hg]
  · ext a
    simp [List.mem_dedup]

/-- Claim C6 witness: two hits from the same file `doc_a.pdf`; the
source set deduplicates to a single entry and `has_context` is true. -/
theorem c6_sources_dedup_witness :
    ([(⟨"i1".data, 3, "t1".data, some ("doc_a.pdf".data)⟩ : SearchResult),
      ⟨"i2".data, 2, "t2".data, some ("doc_a.pdf".data)⟩] ≠ ([] : List SearchResult)) ∧
      query ("What is X?".data) none ("c0".data) (Except.ok [1])
          (fun _ => Except.ok [⟨"i1".data, 3, "t1".data, some ("doc_a.pdf".data)⟩,
                               ⟨"i2".data, 2, "t2".data, some ("doc_a.pdf".data)⟩])
          (fun _ => Except.ok ("ans".data)) =
        Except.ok ⟨"ans".data, resolveConversationId none ("c0".data),
          ([(⟨"i1".data, 3, "t1".data, some ("doc_a.pdf".data)⟩ : SearchResult),
            ⟨"i2".data, 2, "t2".data, some ("doc_a.pdf".data)⟩].map
              (fun r => r.filename.getD ("Unknown".data))).dedup, true,
          some ([(⟨"i1".data, 3, "t1".data, some ("doc_a.pdf".data)⟩ : SearchResult),
                 ⟨"i2".data, 2, "t2".data, some ("doc_a.pdf".data)⟩].map
                   SearchResult.score)⟩ :=
  ⟨by simp,
    (c6_sources_dedup ("What is X?".data) none ("c0".data) [1] _ _
      [⟨"i1".data, 3, "t1".data, some ("doc_a.pdf".data)⟩,
       ⟨"i2".data, 2, "t2".data, some ("doc_a.pdf".data)⟩] ("ans".data)
      rfl (by simp) rfl).1⟩

/-- Claim C9 counterexample: the caller SUPPLIES a conversation id — the
empty string — but Python's falsiness check `if not conversation_id`
replaces it: the returned `conversation_id` is the fresh identifier
`"X"`, not the caller's identifier unchanged. -/
theorem c9_conversation_id_cex :
    query ("q".data) (some []) ("X".data) (Except.ok [1])
        (fun _ => Except.ok []) (fun _ => Except.ok ("r".data)) =
      Except.ok ⟨"r".data, "X".data, [], false, none⟩ ∧
      ("X".data : Str) ≠ [] :=
  ⟨rfl, by decide⟩

/-- Claim C9 (amended): on every successful `query`, the returned
`conversation_id` is the freshly generated identifier when the caller
supplied none OR supplied the EMPTY string (Python falsiness), and is
the caller's identifier unchanged whenever the supplied identifier is
non-empty. -/
theorem c9_conversation_id_amended (user_query : Str) (cid : Option Str) (freshId : Str)
    (emb : Except Str (List Int)) (searchF : List Int → Except Str (List SearchResult))
    (genF : Str → Except Str Str) (r : QueryResult)
    (h : query user_query cid freshId emb searchF genF = Except.ok r) :
    ((cid = none ∨ cid = some []) → r.conversation_id = freshId) ∧
      (∀ s : Str, cid = some s → s ≠ [] → r.conversation_id = s) := by
  have hc := query_ok_conversation_id user_query cid freshId emb searchF genF r h
  constructor
  · rintro (hn | he)
    · rw [hc, hn, resolveConversationId]
    · rw [hc, he]
      simp [resolveConversationId]
  · intro s hs hne
    rw [hc, hs]
    simp [resolveConversationId, hne]

/-- Claim C9 witness: a supplied non-empty id `"abc"` is returned
unchanged. -/
theorem c9_conversation_id_witness :
    query ("q".data) (some ("abc".data)) ("F".data) (Except.ok [1])
        (fun _ => Except.ok []) (fun _ => Except.ok ("r".data)) =
      Except.ok ⟨"r".data, "abc".data, [], false, none⟩ ∧
      ("abc".data ≠ ([] : Str)) ∧
      (⟨"r".data, "abc".data, [], false, none⟩ : QueryResult).conversation_id = "abc".data :=
  ⟨rfl, by decide,
    (c9_conversation_id_amended ("q".data) (some ("abc".data)) ("F".data) (Except.ok [1])
      (fun _ => Except.ok []) (fun _ => Except.ok ("r".data))
      ⟨"r".data, "abc".data, [], false, none⟩ rfl).2 ("abc".data) rfl (by decide)⟩

/-- A successful `process_document` sets `total_chunks` to the number of
chunks it returns (document_processor.py lines 59-63). -/
theorem process_document_ok_total_chunks (extract : Except Str Str) (fn ft : Str)
    (chunks : List Str) (base : MetaBase)
    (h : process_document extract fn ft = Except.ok (chunks, base)) :
    base.total_chunks = chunks.length := by
  rcases extract with e | text
  · simp [process_document] at h
  · simp only [process_document] at h
    split at h
    · exact absurd h (by simp)
    · split at h
      · exact absurd h (by simp)
      · injection h with h1
        cases h1
        rfl

/-- Claim C10: for every successful ingest driven by `process_document`,
the batch handed to `add_documents` carries `chunk_index` values
`0, 1, ..., n-1` in chunk order and `total_chunks = n` on every chunk,
and the returned `document_ids` are exactly the `n` freshly drawn ids
(one per chunk), so their count matches `chunks_count = n`. -/
theorem c10_ingest_metadata (extract : Except Str Str) (fn ft : Str)
    (embed : Str → Except Str (List Int)) (ids : Nat → Str) (timestamp : Str)
    (upsertOutcome : Except Str Unit) (res : IngestResult) (tr : IngestTrace)
    (h : process_and_store_document (process_document extract fn ft) embed ids timestamp
        upsertOutcome = (Except.ok res, tr)) :
    ∃ (texts : List Str) (embs : List (List Int)) (metas : List ChunkMeta),
      tr.upsertBatch = some (texts, embs, metas) ∧
        metas.map ChunkMeta.chunk_index = List.range texts.length ∧
        (∀ m ∈ metas, m.total_chunks = texts.length) ∧
        res.document_ids = (List.range texts.length).map ids ∧
        res.document_ids.length = texts.length ∧
        res.chunks_count = texts.length := by
  rcases hpd : process_document extract fn ft with e | ⟨chunks, base⟩
  · rw [hpd] at h
    simp [process_and_store_document] at h
  · rw [hpd] at h
    have hbase : base.total_chunks = chunks.length :=
      process_document_ok_total_chunks extract fn ft chunks base hpd
    simp only [process_and_store_document] at h
    split at h
    · simp at h
    · split at h
      · simp at h
      · next embs hembs =>
        have hlen : embs.length = chunks.length := embedAll_length embed chunks embs hembs
        split at h
        · simp at h
        · next doc_ids points hadd =>
          rw [add_documents.eq_def] at hadd
          rcases upsertOutcome with ue | uu
          · exact absurd hadd (by simp)
          · injection hadd with hadd1
            injection h with h1 h2
            injection h1 with h3
            cases h3
            cases h2
            refine ⟨chunks, embs, (List.range chunks.length).map (setChunkIndex base),
              rfl, ?_, ?_, ?_, ?_, rfl⟩
            · rw [List.map_map]
              exact List.map_id _
            · intro m hm
              obtain ⟨i, _, rfl⟩ := List.mem_map.mp hm
              exact hbase
            · have hids : doc_ids =
                  ((chunks.zip (embs.zip ((List.range chunks.length).map
                    (setChunkIndex base)))).enum).map (fun p => ids p.1) :=
                ((Prod.mk.injEq .. ).mp hadd1.symm).1
              rw [hids, show (fun p : Nat × (Str × (List Int × ChunkMeta)) => ids p.1) =
                    (ids ∘ Prod.fst) from rfl,
                  ← List.map_map, List.enum_map_fst, List.length_zip, List.length_zip,
                  List.length_map, List.length_range, hlen]
              rw [Nat.min_self, Nat.min_self]
            · have hids : doc_ids =
                  ((chunks.zip (embs.zip ((List.range chunks.length).map
                    (setChunkIndex base)))).enum).map (fun p => ids p.1) :=
                ((Prod.mk.injEq .. ).mp hadd1.symm).1
              rw [hids, List.length_map, List.enum_length, List.length_zip, List.length_zip,
                  List.length_map, List.length_range, hlen, Nat.min_self, Nat.min_self]

/-- Claim C10 witness: a concrete one-chunk ingest succeeds with
`chunk_index = [0]`, `total_chunks = 1`, one generated id and
`chunks_count = 1`. -/
theorem c10_ingest_metadata_witness :
    ∃ (texts : List Str) (embs : List (List Int)) (metas : List ChunkMeta),
      (⟨some ([("a".data)], [[(5 : Int)]], [⟨"f.txt".data, "txt".data, 1, 0⟩]), true⟩ :
          IngestTrace).upsertBatch = some (texts, embs, metas) ∧
        metas.map ChunkMeta.chunk_index = List.range texts.length ∧
        (∀ m ∈ metas, m.total_chunks = texts.length) ∧
        (⟨("Document processed and stored successfully".data), [("u1".data)],
            "f.txt".data, 1⟩ : IngestResult).document_ids =
          (List.range texts.length).map (fun _ => ("u1".data)) ∧
        (⟨("Document processed and stored successfully".data), [("u1".data)],
            "f.txt".data, 1⟩ : IngestResult).document_ids.length = texts.length ∧
        (⟨("Document processed and stored successfully".data), [("u1".data)],
            "f.txt".data, 1⟩ : IngestResult).chunks_count = texts.length :=
  c10_ingest_metadata (Except.ok ("a".data)) ("f.txt".data) ("txt".data)
    (fun _ => Except.ok [(5 : Int)]) (fun _ => ("u1".data)) ("ts".data) (Except.ok ())
    ⟨("Document processed and stored successfully".data), [("u1".data)], "f.txt".data, 1⟩
    ⟨some ([("a".data)], [[(5 : Int)]], [⟨"f.txt".data, "txt".data, 1, 0⟩]), true⟩ rfl
